import Mathlib

/-!
Shallow embedding of the dealer affordance scanner of this repository
(`src/index.js` and the unnamed server variants, notably the puppeteer
variant `src/unnamed/part_001`).  Pure string processing is translated
directly; the external effects (the HTTP `fetch`, the puppeteer renderer,
the cheerio parse of markup into elements, and the WHATWG `URL`
constructor) are modelled as explicit environment functions passed to each
operation.  A probe that throws is `none`; a fetch or render that throws is
`Except.error` carrying the message.
-/

namespace Dealer

/-- Whitespace recognised by the JavaScript `String.prototype.trim`. -/
def isJsWS (c : Char) : Bool :=
  c == ' ' || c == '\t' || c == '\n' || c == '\r' || c == '\x0b' || c == '\x0c'

/-- JS `trim` on the underlying character list: drop whitespace from both
ends. -/
def trimChars (l : List Char) : List Char :=
  ((l.dropWhile isJsWS).reverse.dropWhile isJsWS).reverse

/-- JS `String.prototype.trim`. -/
def jsTrim (s : String) : String := ⟨trimChars s.data⟩

/-- JS `String.prototype.toLowerCase` (ASCII case folding). -/
def strToLower (s : String) : String := ⟨s.data.map Char.toLower⟩

/-- JS `String.prototype.startsWith`. -/
def strStartsWith (s p : String) : Bool := p.data.isPrefixOf s.data

/-- Substring containment on character lists (JS `includes`). -/
def containsSub (hay needle : List Char) : Bool :=
  match hay with
  | [] => needle == []
  | _ :: t => needle.isPrefixOf hay || containsSub t needle

/-- JS `String.prototype.includes`. -/
def strIncludes (s sub : String) : Bool := containsSub s.data sub.data

/-- JS `replace(/&amp;/g, "&")` on a character list. -/
def replaceAmp : List Char → List Char
  | '&' :: 'a' :: 'm' :: 'p' :: ';' :: rest => '&' :: replaceAmp rest
  | c :: rest => c :: replaceAmp rest
  | [] => []

/-- JS `replace(/&amp;/g, "&")`. -/
def replaceAmpStr (s : String) : String := ⟨replaceAmp s.data⟩

/-- First-occurrence deduplication, JS `[...new Set(xs)]`. -/
def setDedup : List String → List String
  | [] => []
  | x :: xs => x :: (setDedup xs).filter (fun y => y != x)

/-- A DOM element as cheerio exposes it to the scanners: tag name, visible
text, and the `href` / `action` attributes when present. -/
structure Element where
  tag : String
  text : String := ""
  href : Option String := none
  action : Option String := none
deriving DecidableEq, Repr

/-- A fetched page: the raw markup, the visible body text, and the parsed
elements in document order. -/
structure Page where
  html : String := ""
  bodyText : String := ""
  elements : List Element := []
deriving DecidableEq, Repr

/-- Result record for one scanned page. -/
structure PageScanResult where
  url : String
  hasCreditApp : Bool
  matchedKeywords : List String
  usedDynamic : Bool := false
  error : Option String := none
deriving DecidableEq, Repr

/-- External effects of one session: the HTTP probe (status code and
post-redirect URL; `none` models a thrown network error), the
fetch-and-parse pipeline, the browser renderer (giving the rendered
`innerText`), and the WHATWG URL constructor `new URL(href, base)`. -/
structure Env where
  probe : String → Option (Nat × String)
  fetchPage : String → Except String Page
  render : String → Except String String
  urlResolve : String → String → Option String

/-- Accepted live range of the puppeteer variant
(`status >= 200 && status < 500`). -/
def liveV1 (s : Nat) : Bool := decide (200 ≤ s) && decide (s < 500)

/-- Accepted live range of `src/index.js`
(`status >= 200 && status < 400`). -/
def liveV0 (s : Nat) : Bool := decide (200 ≤ s) && decide (s < 400)

/-- The probe loop of `resolveUrl`: try each candidate in order, return the
post-redirect URL of the first live response; the second component records
every URL actually probed. -/
def probeAttempts (live : Nat → Bool) (probe : String → Option (Nat × String)) :
    List String → Option String × List String
  | [] => (none, [])
  | url :: rest =>
    match probe url with
    | some (status, finalUrl) =>
      if live status then (some finalUrl, [url])
      else
        let r := probeAttempts live probe rest
        (r.1, url :: r.2)
    | none =>
      let r := probeAttempts live probe rest
      (r.1, url :: r.2)

/-- Candidate list built by `resolveUrl` for a scheme-less input. -/
def attemptsFor (input : String) : List String :=
  ["https://" ++ input, "http://" ++ input] ++
    (if strStartsWith input "www." then []
     else ["https://www." ++ input, "http://www." ++ input])

/-- The URL resolver: an empty raw input yields `none` (the route turns it
into a 400); otherwise the input is trimmed, a scheme-prefixed input is
returned directly without probing, and any other input is probed through
`attemptsFor`, falling back to `https://` plus the trimmed input when every
candidate fails.  The second component records the probes performed. -/
def resolveUrl (live : Nat → Bool) (rawUrl : String)
    (probe : String → Option (Nat × String)) : Option String × List String :=
  if rawUrl = "" then (none, [])
  else
    let input := jsTrim rawUrl
    if strStartsWith input "http://" || strStartsWith input "https://" then
      (some input, [])
    else
      let r := probeAttempts live probe (attemptsFor input)
      (some (r.1.getD ("https://" ++ input)), r.2)

/-- Keyword hits contributed by one actionable element in `scanStatic`:
text and attributes are lowercased and trimmed, the `href` additionally has
`&amp;` normalized to `&` (the `action` does not), and each keyword is
checked against the three fields independently. -/
def elemHits (kws : List String) (el : Element) : List String :=
  let txt := jsTrim (strToLower el.text)
  let href := replaceAmpStr (jsTrim (strToLower (el.href.getD "")))
  let action := jsTrim (strToLower (el.action.getD ""))
  kws.filter (fun kw =>
    strIncludes txt kw || strIncludes href kw || strIncludes action kw)

/-- Elements matched by the `'a, button, form'` selector. -/
def isActionable (el : Element) : Bool :=
  el.tag == "a" || el.tag == "button" || el.tag == "form"

/-- The static scanner of the puppeteer variant (`scanStatic`): body text
plus actionable elements; a thrown fetch yields an errored result. -/
def scanStatic (kws : List String) (fetchPage : String → Except String Page)
    (url : String) : PageScanResult :=
  match fetchPage url with
  | .error e => { url := url, hasCreditApp := false, matchedKeywords := [], error := some e }
  | .ok page =>
    let pageText := strToLower page.bodyText
    let allHits := kws.filter (fun kw => strIncludes pageText kw) ++
      (page.elements.filter isActionable).flatMap (elemHits kws)
    { url := url
      hasCreditApp := decide (0 < allHits.length)
      matchedKeywords := setDedup allHits }

/-- The dynamic scanner (`scanDynamic`): renders the page and checks the
lowercased rendered `innerText` only; always marks `usedDynamic`. -/
def scanDynamic (kws : List String) (render : String → Except String String)
    (url : String) : PageScanResult :=
  match render url with
  | .error e =>
    { url := url, hasCreditApp := false, matchedKeywords := []
      usedDynamic := true, error := some ("Puppeteer error: " ++ e) }
  | .ok innerText =>
    let bodyText := strToLower innerText
    let hits := kws.filter (fun kw => strIncludes bodyText kw)
    { url := url, hasCreditApp := decide (0 < hits.length)
      matchedKeywords := setDedup hits, usedDynamic := true }

/-- The scanner of `src/index.js` (`scanPage`): keywords against the raw
lowercased markup plus `a` and `button` text and `href`; no `form`
elements, no `action` attribute, no entity normalization. -/
def scanPage (kws : List String) (fetchPage : String → Except String Page)
    (url : String) : PageScanResult :=
  match fetchPage url with
  | .error e => { url := url, hasCreditApp := false, matchedKeywords := [], error := some e }
  | .ok page =>
    let text := strToLower page.html
    let allHits := kws.filter (fun kw => strIncludes text kw) ++
      (page.elements.filter (fun el => el.tag == "a" || el.tag == "button")).flatMap
        (fun el =>
          let txt := strToLower el.text
          let href := strToLower (el.href.getD "")
          kws.filter (fun kw => strIncludes txt kw || strIncludes href kw))
    { url := url, hasCreditApp := decide (0 < allHits.length)
      matchedKeywords := setDedup allHits }

/-- Homepage and follow-up scan of the puppeteer variant: static scan,
then the dynamic fallback whenever the static result has no match. -/
def scanWithFallback (kws : List String) (env : Env) (url : String) : PageScanResult :=
  let r := scanStatic kws env.fetchPage url
  if r.hasCreditApp then r else scanDynamic kws env.render url

/-- Candidate-link extraction of the puppeteer variant: normalize the
anchor's href and text, skip (inside a per-anchor guard) any anchor whose
href the URL constructor rejects, keep resolved links whose href or text
contains a link trigger. -/
def extractLinks (trigs : List String) (urlResolve : String → String → Option String)
    (base : String) (anchors : List Element) : List String :=
  anchors.flatMap (fun el =>
    let href := replaceAmpStr (jsTrim (strToLower (el.href.getD "")))
    let txt := jsTrim (strToLower el.text)
    match urlResolve href base with
    | none => []
    | some fullUrl =>
      if trigs.any (fun t => strIncludes href t || strIncludes txt t) then [fullUrl]
      else [])

/-- Candidate-link extraction of `src/index.js`: the URL constructor runs
outside any per-anchor guard, so a rejected href aborts the whole
extraction with an error that the route turns into a 500. -/
def extractLinksV0 (trigs : List String) (urlResolve : String → String → Option String)
    (base : String) (anchors : List Element) : Except String (List String) :=
  anchors.foldl
    (fun acc el =>
      match acc with
      | .error e => .error e
      | .ok links =>
        let href := el.href.getD ""
        let txt := strToLower el.text
        match urlResolve href base with
        | none => .error "Invalid URL"
        | some fullUrl =>
          if trigs.any (fun t => strIncludes (strToLower href) t || strIncludes txt t) then
            .ok (links ++ [fullUrl])
          else .ok links)
    (.ok [])

/-- Anchor elements of a page, the `$('a')` selection. -/
def homepageAnchors (page : Page) : List Element :=
  page.elements.filter (fun el => el.tag == "a")

/-- Per-session scan list of the puppeteer variant: the homepage first,
then (only when the homepage result carries no error) the first five
candidate links in extraction order; a failing re-fetch of the homepage
markup escalates to a session error. -/
def sessionResults (kws trigs : List String) (env : Env) (resolved : String) :
    Except String (List PageScanResult) :=
  let homepage := scanWithFallback kws env resolved
  if homepage.error = none then
    match env.fetchPage resolved with
    | .error e => .error e
    | .ok page =>
      .ok (homepage ::
        ((extractLinks trigs env.urlResolve resolved (homepageAnchors page)).take 5).map
          (scanWithFallback kws env))
  else .ok [homepage]

/-- Per-session scan list of `src/index.js`: no dynamic fallback, and an
extraction failure escalates. -/
def sessionResultsV0 (kws trigs : List String) (env : Env) (resolved : String) :
    Except String (List PageScanResult) :=
  let homepage := scanPage kws env.fetchPage resolved
  if homepage.error = none then
    match env.fetchPage resolved with
    | .error e => .error e
    | .ok page =>
      match extractLinksV0 trigs env.urlResolve resolved (homepageAnchors page) with
      | .error e => .error e
      | .ok candidates =>
        .ok (homepage :: (candidates.take 5).map (scanPage kws env.fetchPage))
  else .ok [homepage]

/-- Liveness bookkeeping step of the route: reachability flag, status
code, and the post-redirect URL the session continues with. -/
def siteCheck (live : Nat → Bool) (probe : String → Option (Nat × String)) (u : String) :
    Bool × Option Nat × String :=
  match probe u with
  | some (s, fin) => (live s, some s, fin)
  | none => (false, none, u)

/-- The 200 JSON payload of `/dealer/check`. -/
structure DealerOk where
  inputUrl : String
  resolvedUrl : String
  siteActive : Bool
  statusCode : Option Nat
  hasCreditApp : Bool
  hits : List PageScanResult
deriving DecidableEq, Repr

/-- Response of `/dealer/check`: 400 for a missing or empty `url`
parameter, 200 with the payload, or the catch-all 500. -/
inductive DealerResponse where
  | badRequest : DealerResponse
  | ok : DealerOk → DealerResponse
  | serverError : String → DealerResponse
deriving DecidableEq, Repr

/-- The `/dealer/check` route of the puppeteer variant. -/
def dealerCheck (kws trigs : List String) (env : Env) (inputUrl : Option String) :
    DealerResponse :=
  match inputUrl with
  | none => .badRequest
  | some raw =>
    match (resolveUrl liveV1 raw env.probe).1 with
    | none => .badRequest
    | some resolved0 =>
      let sc := siteCheck liveV1 env.probe resolved0
      match sessionResults kws trigs env sc.2.2 with
      | .error e => .serverError e
      | .ok results =>
        let positives := results.filter (fun r => r.hasCreditApp)
        .ok { inputUrl := raw, resolvedUrl := sc.2.2, siteActive := sc.1
              statusCode := sc.2.1
              hasCreditApp := decide (0 < positives.length)
              hits := positives }

/-- The `/dealer/check` route of `src/index.js`: the narrower live range,
the static-only scanner, and the unguarded link extraction. -/
def dealerCheckV0 (kws trigs : List String) (env : Env) (inputUrl : Option String) :
    DealerResponse :=
  match inputUrl with
  | none => .badRequest
  | some raw =>
    match (resolveUrl liveV0 raw env.probe).1 with
    | none => .badRequest
    | some resolved0 =>
      let sc := siteCheck liveV0 env.probe resolved0
      match sessionResultsV0 kws trigs env sc.2.2 with
      | .error e => .serverError e
      | .ok results =>
        let positives := results.filter (fun r => r.hasCreditApp)
        .ok { inputUrl := raw, resolvedUrl := sc.2.2, siteActive := sc.1
              statusCode := sc.2.1
              hasCreditApp := decide (0 < positives.length)
              hits := positives }

/-- Default keyword list of the puppeteer variant. -/
def DEFAULT_KEYWORDS : List String :=
  ["apply", "apply now", "application", "apply online", "apply today",
   "credit", "credit app", "credit application", "credit approval", "get credit",
   "finance", "financing", "financing options", "finance application",
   "finance request", "financing program", "get financed",
   "loan", "loan application", "get approved", "pre-approve", "pre-approval",
   "get a quote", "request a quote", "quote request",
   "shop", "shopping", "add to cart", "checkout", "buy now", "order now",
   "preowned"]

/-- Configured keyword set: the defaults, lowercased at startup. -/
def KEYWORDS : List String := DEFAULT_KEYWORDS.map strToLower

/-- Link triggers of the puppeteer variant. -/
def LINK_TRIGGERS : List String :=
  ["finance", "credit", "apply", "loan", "inventory",
   "equipment", "machinery", "trucks", "products", "quote",
   "shop", "cart", "checkout", "buy", "order", "preowned"]

/-- Candidate links the session extracts from the homepage markup (empty
when the re-fetch fails, in which case the session errors instead). -/
def homepageCandidates (trigs : List String) (env : Env) (resolved : String) : List String :=
  match env.fetchPage resolved with
  | .error _ => []
  | .ok page => extractLinks trigs env.urlResolve resolved (homepageAnchors page)

/-- Outcome of probing one candidate: the post-redirect URL when the probe
answers with a live status, `none` on a thrown probe or a dead status. -/
def liveResult (live : Nat → Bool) (probe : String → Option (Nat × String))
    (u : String) : Option String :=
  match probe u with
  | some (s, fin) => if live s then some fin else none
  | none => none

theorem mem_setDedup {a : String} {l : List String} : a ∈ setDedup l ↔ a ∈ l := by
  induction l with
  | nil => simp [setDedup]
  | cons x xs ih =>
    simp only [setDedup, List.mem_cons, List.mem_filter, bne_iff_ne]
    by_cases hax : a = x
    · simp [hax]
    · simp [hax, ih]

theorem setDedup_nodup (l : List String) : (setDedup l).Nodup := by
  induction l with
  | nil => simp [setDedup]
  | cons x xs ih =>
    refine List.Nodup.cons ?_ (ih.filter _)
    intro hmem
    have hx := (List.mem_filter.mp hmem).2
    simp at hx

theorem setDedup_eq_nil_iff {l : List String} : setDedup l = [] ↔ l = [] := by
  cases l <;> simp [setDedup]

theorem decide_pos_iff_setDedup_ne_nil {l : List String} :
    decide (0 < l.length) = true ↔ setDedup l ≠ [] := by
  simp [List.length_pos, setDedup_eq_nil_iff]

theorem probeAttempts_eq_none {live : Nat → Bool} {probe : String → Option (Nat × String)}
    {l : List String} (h : ∀ u ∈ l, liveResult live probe u = none) :
    (probeAttempts live probe l).1 = none := by
  induction l with
  | nil => rfl
  | cons u rest ih =>
    have hu := h u (List.mem_cons_self u rest)
    rcases hp : probe u with _ | ⟨s, fin⟩
    · simpa [probeAttempts, hp] using ih (fun v hv => h v (List.mem_cons_of_mem _ hv))
    · simp only [liveResult, hp] at hu
      cases hls : live s
      · simpa [probeAttempts, hp, hls] using
          ih (fun v hv => h v (List.mem_cons_of_mem _ hv))
      · simp [hls] at hu

theorem probeAttempts_first {live : Nat → Bool} {probe : String → Option (Nat × String)}
    {c fin : String} {pre post : List String}
    (hpre : ∀ u ∈ pre, liveResult live probe u = none)
    (hc : liveResult live probe c = some fin) :
    (probeAttempts live probe (pre ++ c :: post)).1 = some fin := by
  induction pre with
  | nil =>
    rcases hp : probe c with _ | ⟨s, f⟩
    · simp [liveResult, hp] at hc
    · simp only [liveResult, hp] at hc
      cases hls : live s
      · simp [hls] at hc
      · simp [hls] at hc
        simp [probeAttempts, hp, hls, hc]
  | cons u pre ih =>
    have hu := hpre u (List.mem_cons_self u pre)
    have hrest := ih (fun v hv => hpre v (List.mem_cons_of_mem _ hv))
    rcases hp : probe u with _ | ⟨s, f⟩
    · simpa [probeAttempts, hp] using hrest
    · simp only [liveResult, hp] at hu
      cases hls : live s
      · simpa [probeAttempts, hp, hls] using hrest
      · simp [hls] at hu

theorem scanStatic_usedDynamic (kws : List String) (fp : String → Except String Page)
    (url : String) : (scanStatic kws fp url).usedDynamic = false := by
  rcases h : fp url with e | p <;> simp [scanStatic, h]

theorem scanDynamic_usedDynamic (kws : List String) (rd : String → Except String String)
    (url : String) : (scanDynamic kws rd url).usedDynamic = true := by
  rcases h : rd url with e | t <;> simp [scanDynamic, h]

theorem dropWhile_append_of_all {p : Char → Bool} {a b : List Char}
    (h : ∀ c ∈ a, p c = true) : (a ++ b).dropWhile p = b.dropWhile p := by
  induction a with
  | nil => rfl
  | cons c t ih =>
    have hc := h c (List.mem_cons_self c t)
    simp only [List.cons_append, List.dropWhile_cons, hc, if_true]
    exact ih (fun d hd => h d (List.mem_cons_of_mem _ hd))

theorem dropWhile_head_false {p : Char → Bool} {x : Char} {xs : List Char}
    (h : (x :: xs).dropWhile p = x :: xs) : p x = false := by
  cases hp : p x
  · rfl
  · exfalso
    rw [List.dropWhile_cons, hp] at h
    simp only [if_true] at h
    have hle : (xs.dropWhile p).length ≤ xs.length :=
      ((List.dropWhile_suffix p).sublist).length_le
    rw [h] at hle
    rw [List.length_cons] at hle
    omega

theorem trim_stable_parts {l : List Char} (h : trimChars l = l) :
    l.dropWhile isJsWS = l ∧ l.reverse.dropWhile isJsWS = l.reverse := by
  have hsuffix : l.dropWhile isJsWS <:+ l := List.dropWhile_suffix isJsWS
  have hlen1 : ((l.dropWhile isJsWS).reverse.dropWhile isJsWS).length ≤
      (l.dropWhile isJsWS).length := by
    have := ((List.dropWhile_suffix (l := (l.dropWhile isJsWS).reverse) isJsWS).sublist).length_le
    simpa using this
  have hlen2 : (l.dropWhile isJsWS).length ≤ l.length := hsuffix.sublist.length_le
  have hlen0 : ((l.dropWhile isJsWS).reverse.dropWhile isJsWS).length = l.length := by
    have := congrArg List.length h
    simpa [trimChars] using this
  have heq1 : (l.dropWhile isJsWS).length = l.length := by omega
  have hfst : l.dropWhile isJsWS = l := hsuffix.sublist.eq_of_length heq1
  refine ⟨hfst, ?_⟩
  have : ((l.dropWhile isJsWS).reverse.dropWhile isJsWS).reverse = l := h
  rw [hfst] at this
  have hrev : l.reverse.dropWhile isJsWS = l.reverse := by
    have := congrArg List.reverse this
    simpa using this
  exact hrev

theorem trimChars_pad {ws1 ws2 l : List Char}
    (h1 : ∀ c ∈ ws1, isJsWS c = true) (h2 : ∀ c ∈ ws2, isJsWS c = true)
    (hl : trimChars l = l) (hne : l ≠ []) :
    trimChars (ws1 ++ l ++ ws2) = l := by
  obtain ⟨hd, hrev⟩ := trim_stable_parts hl
  rcases l with _ | ⟨x, xs⟩
  · exact absurd rfl hne
  have hx : isJsWS x = false := dropWhile_head_false hd
  rw [trimChars, List.append_assoc, dropWhile_append_of_all h1]
  have hstep2 : ((x :: xs) ++ ws2).dropWhile isJsWS = (x :: xs) ++ ws2 := by
    simp [List.dropWhile_cons, hx]
  rw [hstep2]
  rw [List.reverse_append, dropWhile_append_of_all (by
    intro c hc
    exact h2 c (List.mem_reverse.mp hc))]
  rw [hrev, List.reverse_reverse]

theorem elemHits_subset (kws : List String) (el : Element) : elemHits kws el ⊆ kws := by
  intro a ha
  simp only [elemHits] at ha
  exact (List.mem_filter.mp ha).1

/-- Probe answering 200 at the probed URL itself. -/
def probeOk : String → Option (Nat × String) := fun u => some (200, u)

/-- Environment of a reachable site whose homepage body contains the text
`apply now`. -/
def envHit : Env :=
  { probe := probeOk
    fetchPage := fun _ => .ok { bodyText := "apply now" }
    render := fun _ => .error "no browser"
    urlResolve := fun href _ => some href }

/-- Homepage result produced in `envHit`. -/
def hitResult : PageScanResult :=
  { url := "https://a.com", hasCreditApp := true, matchedKeywords := ["apply"] }

/-- Response `/dealer/check` produces in `envHit` for the input `a.com`. -/
def respHit : DealerOk :=
  { inputUrl := "a.com", resolvedUrl := "https://a.com", siteActive := true
    statusCode := some 200, hasCreditApp := true, hits := [hitResult] }

/-- Environment whose static fetch always throws while the renderer
delivers the text `apply now`. -/
def envFetchErr : Env :=
  { probe := probeOk
    fetchPage := fun _ => .error "network timeout"
    render := fun _ => .ok "apply now"
    urlResolve := fun href _ => some href }

/-- Homepage with one trigger-matching anchor whose href the URL
constructor rejects. -/
def badHrefPage : Page :=
  { elements := [{ tag := "a", text := "Finance", href := some "https://" }] }

/-- Environment of a reachable site serving `badHrefPage`, whose URL
constructor rejects the href `https://`. -/
def envBadHref : Env :=
  { probe := probeOk
    fetchPage := fun _ => .ok badHrefPage
    render := fun _ => .ok ""
    urlResolve := fun href _ => if href = "https://" then none else some href }

/-- C1 (amended): the dynamic scanner runs for a page exactly when the
static scanner's result has `hasCreditApp = false`, whether or not that
static result carries a fetch error; a static fetch error therefore still
triggers the dynamic fallback, whose result replaces the errored one. -/
theorem dynamicFallback_iff_no_static_match (kws : List String) (env : Env) (url : String) :
    (scanWithFallback kws env url).usedDynamic = true ↔
      (scanStatic kws env.fetchPage url).hasCreditApp = false := by
  cases h : (scanStatic kws env.fetchPage url).hasCreditApp <;>
    simp [scanWithFallback, h, scanStatic_usedDynamic, scanDynamic_usedDynamic]

/-- C1 counterexample: a homepage whose static fetch throws — so the
static result reports a fetch error — still gets the dynamic scanner,
which here even finds a match, although the claim says the dynamic scanner
must not run for a page whose static scan reported a fetch error. -/
theorem dynamicFallback_runs_after_fetch_error :
    (scanStatic ["apply"] envFetchErr.fetchPage "https://x.com").error = some "network timeout"
    ∧ (scanStatic ["apply"] envFetchErr.fetchPage "https://x.com").hasCreditApp = false
    ∧ (scanWithFallback ["apply"] envFetchErr "https://x.com").usedDynamic = true
    ∧ (scanWithFallback ["apply"] envFetchErr "https://x.com").hasCreditApp = true := by
  decide

/-- C2 (amended): for any non-empty raw input whose trimmed form starts
with `http://` or `https://`, the resolver returns the trimmed input
directly and performs no network probe (its probe trace is empty); the raw
input itself comes back unchanged exactly when it has no surrounding
whitespace. -/
theorem resolveUrl_scheme_returns_trimmed (live : Nat → Bool)
    (probe : String → Option (Nat × String)) (raw : String) (hraw : raw ≠ "")
    (hscheme : (strStartsWith (jsTrim raw) "http://" ||
      strStartsWith (jsTrim raw) "https://") = true) :
    resolveUrl live raw probe = (some (jsTrim raw), []) := by
  simp [resolveUrl, hraw, hscheme]

/-- C2 witness: a scheme-prefixed input with surrounding whitespace is
returned trimmed, with an empty probe trace. -/
theorem resolveUrl_scheme_returns_trimmed_witness :
    resolveUrl liveV1 " https://a.com " probeOk = (some (jsTrim " https://a.com "), []) :=
  resolveUrl_scheme_returns_trimmed liveV1 probeOk " https://a.com " (by decide) (by decide)

/-- C2 counterexample: the raw input `https://a.com` followed by a blank
starts with `https://`, yet the resolver returns it trimmed rather than
unchanged. -/
theorem resolveUrl_scheme_not_unchanged :
    strStartsWith "https://a.com " "https://" = true
    ∧ (resolveUrl liveV1 "https://a.com " probeOk).1 ≠ some "https://a.com " := by
  decide

/-- C3: for a non-empty, already-trimmed input with no scheme, the
resolver builds exactly the candidates `https://` and `http://` plus — only
without a `www.` prefix — the two `www.` forms, in that order; it returns
the post-redirect URL of the first candidate answering a live status, and
falls back to `https://` plus the input when every candidate fails or
errors. -/
theorem resolveUrl_first_live_or_fallback (live : Nat → Bool)
    (probe : String → Option (Nat × String)) (raw : String)
    (hraw : raw ≠ "") (htrim : jsTrim raw = raw)
    (h1 : strStartsWith raw "http://" = false)
    (h2 : strStartsWith raw "https://" = false) :
    (∀ pre c post fin,
      (["https://" ++ raw, "http://" ++ raw] ++
        (if strStartsWith raw "www." then []
         else ["https://www." ++ raw, "http://www." ++ raw])) = pre ++ c :: post →
      (∀ u ∈ pre, liveResult live probe u = none) →
      liveResult live probe c = some fin →
      (resolveUrl live raw probe).1 = some fin)
    ∧ ((∀ u ∈ ["https://" ++ raw, "http://" ++ raw] ++
          (if strStartsWith raw "www." then []
           else ["https://www." ++ raw, "http://www." ++ raw]),
        liveResult live probe u = none) →
      (resolveUrl live raw probe).1 = some ("https://" ++ raw)) := by
  have hres : (resolveUrl live raw probe).1 =
      (probeAttempts live probe (attemptsFor raw)).1.getD ("https://" ++ raw) := by
    simp [resolveUrl, hraw, htrim, h1, h2]
  have hatt : attemptsFor raw =
      ["https://" ++ raw, "http://" ++ raw] ++
        (if strStartsWith raw "www." then []
         else ["https://www." ++ raw, "http://www." ++ raw]) := rfl
  constructor
  · intro pre c post fin heq hpre hc
    rw [hres, hatt, heq, probeAttempts_first hpre hc]
    rfl
  · intro hall
    rw [← hatt] at hall
    rw [hres, probeAttempts_eq_none hall]
    rfl

/-- C3 witness: with the first candidate answering 503 and the second
redirecting to a live final URL, the resolver returns that final URL. -/
theorem resolveUrl_first_live_or_fallback_witness :
    (resolveUrl liveV1 "a.com"
      (fun u => if u = "https://a.com" then some (503, "dead")
        else if u = "http://a.com" then some (301, "http://a.com/") else none)).1 =
      some "http://a.com/" :=
  (resolveUrl_first_live_or_fallback liveV1
    (fun u => if u = "https://a.com" then some (503, "dead")
      else if u = "http://a.com" then some (301, "http://a.com/") else none)
    "a.com" (by decide) (by decide) (by decide) (by decide)).1
    ["https://a.com"] "http://a.com" ["https://www.a.com", "http://www.a.com"]
    "http://a.com/" (by decide) (by decide) (by decide)

/-- Invariant of one scan result: the match flag holds exactly when some
keyword matched, and an errored result is always negative and empty. -/
def matchInvariant (r : PageScanResult) : Prop :=
  (r.hasCreditApp = true ↔ r.matchedKeywords ≠ []) ∧
    (r.error = none ∨ (r.hasCreditApp = false ∧ r.matchedKeywords = []))

/-- C4: every result any scanner produces — static, dynamic, or the
`src/index.js` scanner, success or error path alike — has `hasCreditApp`
true exactly when `matchedKeywords` is non-empty, and every result with
`error` set is negative with an empty keyword list. -/
theorem scanners_match_invariant (kws : List String) (fp : String → Except String Page)
    (rd : String → Except String String) (url : String) :
    matchInvariant (scanStatic kws fp url) ∧ matchInvariant (scanDynamic kws rd url)
      ∧ matchInvariant (scanPage kws fp url) := by
  refine ⟨?_, ?_, ?_⟩
  · rcases h : fp url with e | p
    · simp only [scanStatic, h]
      exact ⟨by simp, Or.inr ⟨rfl, rfl⟩⟩
    · simp only [scanStatic, h]
      exact ⟨decide_pos_iff_setDedup_ne_nil, Or.inl rfl⟩
  · rcases h : rd url with e | t
    · simp only [scanDynamic, h]
      exact ⟨by simp, Or.inr ⟨rfl, rfl⟩⟩
    · simp only [scanDynamic, h]
      exact ⟨decide_pos_iff_setDedup_ne_nil, Or.inl rfl⟩
  · rcases h : fp url with e | p
    · simp only [scanPage, h]
      exact ⟨by simp, Or.inr ⟨rfl, rfl⟩⟩
    · simp only [scanPage, h]
      exact ⟨decide_pos_iff_setDedup_ne_nil, Or.inl rfl⟩

/-- C5: each scanner's matched-keyword list is a subset of the configured
keyword list (matched against lowercased content) and free of duplicates,
on every path. -/
theorem scanners_matched_subset_nodup (kws : List String)
    (fp : String → Except String Page) (rd : String → Except String String) (url : String) :
    ((scanStatic kws fp url).matchedKeywords ⊆ kws
        ∧ (scanStatic kws fp url).matchedKeywords.Nodup)
    ∧ ((scanDynamic kws rd url).matchedKeywords ⊆ kws
        ∧ (scanDynamic kws rd url).matchedKeywords.Nodup)
    ∧ ((scanPage kws fp url).matchedKeywords ⊆ kws
        ∧ (scanPage kws fp url).matchedKeywords.Nodup) := by
  refine ⟨⟨?_, ?_⟩, ⟨?_, ?_⟩, ⟨?_, ?_⟩⟩
  · rcases h : fp url with e | p
    · simp [scanStatic, h]
    · intro a ha
      simp only [scanStatic, h] at ha
      rw [mem_setDedup] at ha
      rcases List.mem_append.mp ha with hA | hB
      · exact (List.mem_filter.mp hA).1
      · obtain ⟨el, -, hmem⟩ := List.mem_flatMap.mp hB
        exact elemHits_subset kws el hmem
  · rcases h : fp url with e | p <;> simp [scanStatic, h, setDedup_nodup]
  · rcases h : rd url with e | t
    · simp [scanDynamic, h]
    · intro a ha
      simp only [scanDynamic, h] at ha
      rw [mem_setDedup] at ha
      exact (List.mem_filter.mp ha).1
  · rcases h : rd url with e | t <;> simp [scanDynamic, h, setDedup_nodup]
  · rcases h : fp url with e | p
    · simp [scanPage, h]
    · intro a ha
      simp only [scanPage, h] at ha
      rw [mem_setDedup] at ha
      rcases List.mem_append.mp ha with hA | hB
      · exact (List.mem_filter.mp hA).1
      · obtain ⟨el, -, hmem⟩ := List.mem_flatMap.mp hB
        exact (List.mem_filter.mp hmem).1
  · rcases h : fp url with e | p <;> simp [scanPage, h, setDedup_nodup]

/-- C6: an accepted session scan list has at most six entries: the
homepage result first, followed by the scans of at most the first five
extracted candidate links, in extraction order. -/
theorem sessionResults_at_most_six (kws trigs : List String) (env : Env) (resolved : String)
    (results : List PageScanResult)
    (h : sessionResults kws trigs env resolved = .ok results) :
    results.length ≤ 6 ∧
    results.head? = some (scanWithFallback kws env resolved) ∧
    (results.tail = ((homepageCandidates trigs env resolved).take 5).map
        (scanWithFallback kws env)
      ∨ results.tail = []) := by
  by_cases hE : (scanWithFallback kws env resolved).error = none
  · rcases hf : env.fetchPage resolved with e | p
    · simp [sessionResults, hE, hf] at h
    · simp only [sessionResults, hE, hf, if_true, Except.ok.injEq] at h
      rw [← h]
      refine ⟨?_, rfl, Or.inl ?_⟩
      · simp [List.length_take]
      · simp [homepageCandidates, hf]
  · simp only [sessionResults, hE, if_false, Except.ok.injEq] at h
    rw [← h]
    exact ⟨by simp, rfl, Or.inr rfl⟩

/-- C6 witness: a session on `envHit` scans only the homepage. -/
theorem sessionResults_at_most_six_witness :
    [hitResult].length ≤ 6 ∧
    [hitResult].head? = some (scanWithFallback ["apply"] envHit "https://a.com") ∧
    ([hitResult].tail = ((homepageCandidates [] envHit "https://a.com").take 5).map
        (scanWithFallback ["apply"] envHit)
      ∨ [hitResult].tail = []) :=
  sessionResults_at_most_six ["apply"] [] envHit "https://a.com" [hitResult] (by rfl)

/-- C7: every accepted `/dealer/check` response carries as `hits` exactly
the positive subsequence of the session's scan results — negative and
errored results are dropped — and its session-level `hasCreditApp` holds
exactly when some scanned page was positive. -/
theorem dealerCheck_hits_are_positive_filter (kws trigs : List String) (env : Env)
    (raw : String) (resp : DealerOk)
    (h : dealerCheck kws trigs env (some raw) = .ok resp) :
    ∃ results, sessionResults kws trigs env resp.resolvedUrl = .ok results ∧
      resp.hits = results.filter (fun r => r.hasCreditApp) ∧
      (resp.hasCreditApp = true ↔ ∃ r ∈ results, r.hasCreditApp = true) := by
  simp only [dealerCheck] at h
  split at h
  · simp at h
  · rename_i resolved0 hr
    split at h
    · simp at h
    · rename_i results hs
      simp only [DealerResponse.ok.injEq] at h
      subst h
      refine ⟨results, hs, rfl, ?_⟩
      simp [List.length_pos_iff_exists_mem, List.mem_filter]

/-- C7 witness: in `envHit` the single homepage result is positive and is
the sole entry of `hits`. -/
theorem dealerCheck_hits_are_positive_filter_witness :
    ∃ results, sessionResults ["apply"] [] envHit respHit.resolvedUrl = .ok results ∧
      respHit.hits = results.filter (fun r => r.hasCreditApp) ∧
      (respHit.hasCreditApp = true ↔ ∃ r ∈ results, r.hasCreditApp = true) :=
  dealerCheck_hits_are_positive_filter ["apply"] [] envHit "a.com" respHit (by decide)

/-- C8: on a homepage whose only anchor has a href the URL constructor
rejects, the puppeteer variant silently skips the anchor (extraction
yields no candidate and the session answers 200), while `src/index.js`
resolves the href outside any per-anchor guard and the same session
escalates to the catch-all 500 — the silently-skipped behavior the claim
and the later variants describe, contradicted by `src/index.js`. -/
theorem malformedHref_skipped_vs_indexJs_500 :
    dealerCheckV0 ["apply"] ["finance"] envBadHref (some "x.com") = .serverError "Invalid URL"
    ∧ dealerCheck ["apply"] ["finance"] envBadHref (some "x.com") =
        .ok { inputUrl := "x.com", resolvedUrl := "https://x.com", siteActive := true
              statusCode := some 200, hasCreditApp := false, hits := [] }
    ∧ extractLinks ["finance"] envBadHref.urlResolve "https://x.com"
        (homepageAnchors badHrefPage) = [] := by
  decide

/-- Element hits as the claim describes them, modelled from the spec: the
`&amp;` entity normalized to `&` in the `action` attribute as well as in
the `href`. -/
def elemHitsClaim (kws : List String) (el : Element) : List String :=
  let txt := jsTrim (strToLower el.text)
  let href := replaceAmpStr (jsTrim (strToLower (el.href.getD "")))
  let action := replaceAmpStr (jsTrim (strToLower (el.action.getD "")))
  kws.filter (fun kw =>
    strIncludes txt kw || strIncludes href kw || strIncludes action kw)

/-- C9 counterexample: a form whose `action` is `p&amp;q` does not match
the keyword `p&q` in the code — the `action` attribute is lowercased and
trimmed but its `&amp;` entity is not normalized — although under the
claim's described normalization it would match. -/
theorem scanStatic_action_not_amp_normalized :
    (scanStatic ["p&q"]
      (fun _ => Except.ok { elements := [{ tag := "form", action := some "p&amp;q" }] })
      "https://x.com").matchedKeywords = []
    ∧ elemHitsClaim ["p&q"] { tag := "form", action := some "p&amp;q" } = ["p&q"] := by
  decide

/-- C9 (amended): a keyword is recorded for a fetched page exactly when it
occurs in the lowercased body text or in some anchor, button, or form
element — in its lowercased trimmed text, its lowercased trimmed href with
`&amp;` normalized to `&`, or its lowercased trimmed action without entity
normalization — each field checked independently. -/
theorem scanStatic_matched_characterization (kws : List String)
    (fp : String → Except String Page) (url : String) (page : Page) (kw : String)
    (h : fp url = .ok page) :
    kw ∈ (scanStatic kws fp url).matchedKeywords ↔
      kw ∈ kws ∧ (strIncludes (strToLower page.bodyText) kw = true ∨
        ∃ el ∈ page.elements, isActionable el = true ∧
          (strIncludes (jsTrim (strToLower el.text)) kw = true ∨
           strIncludes (replaceAmpStr (jsTrim (strToLower (el.href.getD "")))) kw = true ∨
           strIncludes (jsTrim (strToLower (el.action.getD ""))) kw = true)) := by
  simp only [scanStatic, h]
  rw [mem_setDedup, List.mem_append]
  constructor
  · rintro (hA | hB)
    · have hA' := List.mem_filter.mp hA
      exact ⟨hA'.1, Or.inl hA'.2⟩
    · obtain ⟨el, helf, hmem⟩ := List.mem_flatMap.mp hB
      have hel := List.mem_filter.mp helf
      have hkw := List.mem_filter.mp hmem
      refine ⟨hkw.1, Or.inr ⟨el, hel.1, hel.2, ?_⟩⟩
      simpa [Bool.or_eq_true, or_assoc] using hkw.2
  · rintro ⟨hk, hb | ⟨el, helm, hact, hcond⟩⟩
    · exact Or.inl (List.mem_filter.mpr ⟨hk, hb⟩)
    · refine Or.inr (List.mem_flatMap.mpr ⟨el, List.mem_filter.mpr ⟨helm, hact⟩, ?_⟩)
      refine List.mem_filter.mpr ⟨hk, ?_⟩
      simpa [Bool.or_eq_true, or_assoc] using hcond

/-- C9 witness: an anchor whose text is `Apply Now` records the keyword
`apply`. -/
theorem scanStatic_matched_characterization_witness :
    "apply" ∈ (scanStatic ["apply"]
      (fun _ => Except.ok { elements := [{ tag := "a", text := "Apply Now" }] })
      "https://x.com").matchedKeywords ↔
      "apply" ∈ ["apply"] ∧ (strIncludes (strToLower "") "apply" = true ∨
        ∃ el ∈ [({ tag := "a", text := "Apply Now" } : Element)], isActionable el = true ∧
          (strIncludes (jsTrim (strToLower el.text)) "apply" = true ∨
           strIncludes (replaceAmpStr (jsTrim (strToLower (el.href.getD "")))) "apply" = true ∨
           strIncludes (jsTrim (strToLower (el.action.getD ""))) "apply" = true)) :=
  scanStatic_matched_characterization ["apply"]
    (fun _ => Except.ok { elements := [{ tag := "a", text := "Apply Now" }] })
    "https://x.com" { elements := [{ tag := "a", text := "Apply Now" }] } "apply" rfl

/-- C10: the resolver operates entirely on the trimmed input: surrounding
whitespace changes nothing — the scheme check, every generated candidate,
and the exhaustion fallback use the trimmed string, so the returned URL
never carries the input's surrounding whitespace. -/
theorem resolveUrl_ignores_surrounding_whitespace (live : Nat → Bool)
    (probe : String → Option (Nat × String)) (ws1 ws2 core : String)
    (h1 : ∀ c ∈ ws1.data, isJsWS c = true) (h2 : ∀ c ∈ ws2.data, isJsWS c = true)
    (hcore : jsTrim core = core) (hne : core ≠ "") :
    resolveUrl live (ws1 ++ core ++ ws2) probe = resolveUrl live core probe := by
  have hdata : core.data ≠ [] := by
    intro hd
    apply hne
    cases core
    simp at hd
    simp [hd]
  have hc2 : trimChars core.data = core.data := congrArg String.data hcore
  have hd : (ws1 ++ core ++ ws2).data = ws1.data ++ core.data ++ ws2.data := by
    simp [String.data_append]
  have hpad : jsTrim (ws1 ++ core ++ ws2) = core := by
    simp only [jsTrim, hd]
    rw [trimChars_pad h1 h2 hc2 hdata]
  have hpadne : (ws1 ++ core ++ ws2) ≠ "" := by
    intro h0
    have hx := congrArg String.data h0
    rw [hd] at hx
    simp at hx
    exact hdata hx.2.1
  simp [resolveUrl, hpadne, hne, hpad, hcore]

/-- C10 witness: blanks around `a.com` do not change the resolution. -/
theorem resolveUrl_ignores_surrounding_whitespace_witness :
    resolveUrl liveV1 (" " ++ "a.com" ++ " ") probeOk = resolveUrl liveV1 "a.com" probeOk :=
  resolveUrl_ignores_surrounding_whitespace liveV1 probeOk " " " " "a.com"
    (by decide) (by decide) (by decide) (by decide)

end Dealer
